import Mathlib

/-!
Verification of the input-and-menu toolkit (training-pygame).

Shallow embedding of the device state trackers (`tools/softwares.py`:
`Keyboard`, `Mouse`, `Joystick`) and the menu model (`models/menus.py`:
`Option`, `Menu`).  Python dictionaries become maps `α → Lean.Option β`
(here written `PMap α β`), wall-clock time (`time.time()`) becomes an
explicit rational parameter `now`, and operations that can raise a
Python exception (KeyError, AttributeError, TypeError) return `Except`.
Rendering, fonts and the display backend are outside the claims and are
not modelled; call sequences to `onblur`/`onfocus`/`apply` are recorded
in an explicit log so that call counts can be stated.
-/

namespace TrainingPygame

/-- Python dict with keys `α` and values `β`: a key maps to `none` when absent. -/
abbrev PMap (α β : Type) := α → Option β

/-- The empty dict. -/
def PMap.empty {α β : Type} : PMap α β := fun _ => none

/-- Dict update `m[k] = v`. -/
def PMap.insert {α β : Type} [DecidableEq α] (m : PMap α β) (k : α) (v : β) : PMap α β :=
  fun q => if q = k then some v else m q

@[simp] theorem PMap.insert_same {α β : Type} [DecidableEq α] (m : PMap α β) (k : α) (v : β) :
    m.insert k v k = some v := by
  simp [PMap.insert]

@[simp] theorem PMap.insert_other {α β : Type} [DecidableEq α] (m : PMap α β) (k q : α) (v : β)
    (h : q ≠ k) : m.insert k v q = some v ∨ m.insert k v q = m q := by
  simp [PMap.insert, h]

theorem PMap.insert_ne {α β : Type} [DecidableEq α] (m : PMap α β) (k q : α) (v : β)
    (h : q ≠ k) : m.insert k v q = m q := by
  simp [PMap.insert, h]

@[simp] theorem PMap.empty_apply {α β : Type} (k : α) : (PMap.empty : PMap α β) k = none := rfl

/-! ## Keyboard (`tools/softwares.py`, class `Keyboard`) -/

/-- Key state constant stored in `_key_type`: `pygame.KEYDOWN` or `pygame.KEYUP`. -/
inductive KeyType where
  | down
  | up
deriving DecidableEq

/-- Identifier usable as a `_key_type` dict key: a raw key code (int) or a
string (produced character, or symbolic key name). -/
inductive KeyId where
  | intId (k : Int)
  | strId (s : String)
deriving DecidableEq

/-- Keyboard events consumed by `Keyboard.update`: `KEYDOWN` carries
`event.key`, `event.mod` and `event.unicode` (possibly the empty string),
`KEYUP` carries `event.key` and `event.mod`. -/
inductive KEvent where
  | keyDown (key mod : Int) (unicode : String)
  | keyUp (key mod : Int)
deriving DecidableEq

/-- State of the `Keyboard` singleton: the four instance dicts. -/
structure Keyboard where
  key_type : PMap KeyId KeyType
  key_first : PMap KeyId Bool
  key_time : PMap KeyId ℚ
  unicode : PMap (Int × Int) String

/-- `Keyboard.__init__`: all four dicts start empty. -/
def Keyboard.init : Keyboard :=
  ⟨PMap.empty, PMap.empty, PMap.empty, PMap.empty⟩

/-- Body of the per-event loop of `Keyboard.update`.  `nm` models the
backend function `pygame.key.name`; a name or unicode equal to `""` is
skipped exactly as in the source. -/
def Keyboard.update1 (nm : Int → String) (kb : Keyboard) (e : KEvent) : Keyboard :=
  match e with
  | .keyDown key mod uni =>
    let kb1 : Keyboard :=
      { kb with key_type := kb.key_type.insert (.intId key) .down,
                key_first := kb.key_first.insert (.intId key) true }
    let kb2 : Keyboard :=
      if uni ≠ "" then
        { kb1 with key_type := kb1.key_type.insert (.strId uni) .down,
                   key_first := kb1.key_first.insert (.strId uni) true,
                   unicode := kb1.unicode.insert (key, mod) uni }
      else kb1
    if nm key ≠ "" then
      { kb2 with key_type := kb2.key_type.insert (.strId (nm key)) .down,
                 key_first := kb2.key_first.insert (.strId (nm key)) true }
    else kb2
  | .keyUp key mod =>
    let kb1 : Keyboard := { kb with key_type := kb.key_type.insert (.intId key) .up }
    let kb2 : Keyboard :=
      match kb1.unicode (key, mod) with
      | some uni => { kb1 with key_type := kb1.key_type.insert (.strId uni) .up }
      | none => kb1
    if nm key ≠ "" then
      { kb2 with key_type := kb2.key_type.insert (.strId (nm key)) .up }
    else kb2

/-- `Keyboard.update(events)`: process one batch of events in order. -/
def Keyboard.update (nm : Int → String) (kb : Keyboard) (events : List KEvent) : Keyboard :=
  events.foldl (Keyboard.update1 nm) kb

/-- `Keyboard.push(key, delay)`.  `now` is the value `time.time()` would
return during this call.  Returns the optional-bool result together with
the updated keyboard state; `Except.error` marks a raised KeyError
(reading `_key_time[key]` when absent). -/
def Keyboard.push (kb : Keyboard) (key : KeyId) (delay now : ℚ) :
    Except Unit (Option Bool × Keyboard) :=
  if (kb.key_type key).isNone ∨ (kb.key_first key).isNone then
    .ok (none, kb)
  else if kb.key_first key = some true then
    .ok (some true, { kb with key_first := kb.key_first.insert key false,
                              key_time := kb.key_time.insert key now })
  else if kb.key_type key ≠ some .down then
    .ok (some false, kb)
  else
    match kb.key_time key with
    | none => .error ()
    | some t =>
      if now - t ≥ delay then
        .ok (some true, { kb with key_time := kb.key_time.insert key now })
      else
        .ok (some false, kb)

/-! ## Mouse (`tools/softwares.py`, class `Mouse`) -/

/-- Button state constant stored in `_button_type`: `pygame.MOUSEBUTTONDOWN`
or `pygame.MOUSEBUTTONUP`. -/
inductive BType where
  | down
  | up
deriving DecidableEq

/-- Mouse events consumed by `Mouse.update`. -/
inductive MEvent where
  | buttonDown (button : Int)
  | buttonUp (button : Int)
  | motion (pos rel : Int × Int)
deriving DecidableEq

/-- State of the `Mouse` singleton. -/
structure Mouse where
  pos : Int × Int
  rel : Int × Int
  button_type : PMap Int BType
  button_first : PMap Int Bool
  button_time : PMap Int ℚ

/-- `Mouse.__init__`. -/
def Mouse.init : Mouse :=
  ⟨(0, 0), (0, 0), PMap.empty, PMap.empty, PMap.empty⟩

/-- Body of the per-event loop of `Mouse.update`.  Note that
`MOUSEBUTTONUP` writes `_button_type` only — `_button_first` is untouched. -/
def Mouse.update1 (m : Mouse) (e : MEvent) : Mouse :=
  match e with
  | .buttonDown b =>
    { m with button_type := m.button_type.insert b .down,
             button_first := m.button_first.insert b true }
  | .buttonUp b =>
    { m with button_type := m.button_type.insert b .up }
  | .motion p r =>
    { m with pos := p, rel := r }

/-- `Mouse.update(events)`: `_rel` is reset to `(0, 0)` before the loop. -/
def Mouse.update (m : Mouse) (events : List MEvent) : Mouse :=
  events.foldl Mouse.update1 { m with rel := (0, 0) }

/-- `Mouse.push(button, delay)`.  Unlike `Keyboard.push` the absence test
covers `_button_type` only, so `_button_first[button]` is a raw dict read
that raises KeyError (modelled by `Except.error`) when the entry is
missing. -/
def Mouse.push (m : Mouse) (button : Int) (delay now : ℚ) :
    Except Unit (Option Bool × Mouse) :=
  match m.button_type button with
  | none => .ok (none, m)
  | some bt =>
    match m.button_first button with
    | none => .error ()
    | some first =>
      if first then
        .ok (some true, { m with button_first := m.button_first.insert button false,
                                 button_time := m.button_time.insert button now })
      else if bt ≠ .down then
        .ok (some false, m)
      else
        match m.button_time button with
        | none => .error ()
        | some t =>
          if now - t ≥ delay then
            .ok (some true, { m with button_time := m.button_time.insert button now })
          else
            .ok (some false, m)

/-- `Mouse.move()`: true iff the per-frame relative motion is nonzero. -/
def Mouse.move (m : Mouse) : Bool :=
  !(m.rel = (0, 0))

/-- A backend rectangle: `topleft = (x, y)`, `bottomright = (x + w, y + h)`. -/
structure Rect where
  x : Int
  y : Int
  w : Int
  h : Int
deriving DecidableEq

/-- The `topleft` corner of a rectangle. -/
def Rect.topleft (r : Rect) : Int × Int := (r.x, r.y)

/-- The `bottomright` corner of a rectangle. -/
def Rect.bottomright (r : Rect) : Int × Int := (r.x + r.w, r.y + r.h)

/-- `Mouse.inside(area)`: chained inclusive comparisons
`top[0] <= pos[0] <= bot[0] and top[1] <= pos[1] <= bot[1]`. -/
def Mouse.inside (m : Mouse) (area : Rect) : Bool :=
  let pos := m.pos
  let top := area.topleft
  let bot := area.bottomright
  if top.1 ≤ pos.1 ∧ pos.1 ≤ bot.1 ∧ top.2 ≤ pos.2 ∧ pos.2 ≤ bot.2 then true else false

/-! ## Joystick (`tools/softwares.py`, class `Joystick`) -/

/-- Button state constant stored in the joystick `_button_type`:
`pygame.JOYBUTTONDOWN` or `pygame.JOYBUTTONUP`. -/
inductive JBType where
  | down
  | up
deriving DecidableEq

/-- Joystick events consumed by `Joystick.update`; every record carries
`event.joy`, the id of the reporting device. -/
inductive JEvent where
  | buttonDown (joy button : Int)
  | buttonUp (joy button : Int)
  | axisMotion (joy axis : Int) (value : ℚ)
  | hatMotion (joy hat : Int) (value : Int × Int)
  | ballMotion (joy ball : Int) (rel : Int × Int) (now : ℚ)
deriving DecidableEq

/-- State of a `Joystick` instance (the name attribute and backend probing
of `reset_joystick` are not modelled; no claim mentions them). -/
structure Joystick where
  id : Int
  button_type : PMap Int JBType
  button_first : PMap Int Bool
  button_time : PMap Int ℚ
  axis_value : PMap Int ℚ
  axis_first : PMap Int Bool
  axis_time : PMap Int ℚ
  hat_value : PMap Int (Int × Int)
  hat_first : PMap Int Bool
  hat_time : PMap Int ℚ
  ball_value : PMap Int (Int × Int)
  ball_first : PMap Int Bool
  ball_time : PMap Int ℚ

/-- `Joystick.__init__(id_)`: all dicts start empty. -/
def Joystick.init (id_ : Int) : Joystick :=
  ⟨id_, PMap.empty, PMap.empty, PMap.empty, PMap.empty, PMap.empty, PMap.empty,
    PMap.empty, PMap.empty, PMap.empty, PMap.empty, PMap.empty, PMap.empty⟩

/-- Body of the per-event loop of `Joystick.update`: events whose `joy`
field differs from this instance id are ignored. -/
def Joystick.update1 (j : Joystick) (e : JEvent) : Joystick :=
  match e with
  | .buttonDown joy b =>
    if joy = j.id then
      { j with button_type := j.button_type.insert b .down,
               button_first := j.button_first.insert b true }
    else j
  | .buttonUp joy b =>
    if joy = j.id then
      { j with button_type := j.button_type.insert b .up }
    else j
  | .axisMotion joy a v =>
    if joy = j.id then
      { j with axis_value := j.axis_value.insert a v,
               axis_first := j.axis_first.insert a true }
    else j
  | .hatMotion joy h v =>
    if joy = j.id then
      { j with hat_value := j.hat_value.insert h v,
               hat_first := j.hat_first.insert h true }
    else j
  | .ballMotion joy b r now =>
    if joy = j.id then
      { j with ball_value := j.ball_value.insert b r,
               ball_time := j.ball_time.insert b now,
               ball_first := j.ball_first.insert b true }
    else j

/-- `Joystick.update(events)`. -/
def Joystick.update (j : Joystick) (events : List JEvent) : Joystick :=
  events.foldl Joystick.update1 j

/-- `Joystick.push_button(button, delay)`.  Like `Mouse.push`, the absence
test covers `_button_type` only, so the `_button_first[button]` read can
raise KeyError. -/
def Joystick.push_button (j : Joystick) (button : Int) (delay now : ℚ) :
    Except Unit (Option Bool × Joystick) :=
  match j.button_type button with
  | none => .ok (none, j)
  | some bt =>
    match j.button_first button with
    | none => .error ()
    | some first =>
      if first then
        .ok (some true, { j with button_first := j.button_first.insert button false,
                                 button_time := j.button_time.insert button now })
      else if bt ≠ .down then
        .ok (some false, j)
      else
        match j.button_time button with
        | none => .error ()
        | some t =>
          if now - t ≥ delay then
            .ok (some true, { j with button_time := j.button_time.insert button now })
          else
            .ok (some false, j)

/-! ## Options and menus (`models/menus.py`)

Option objects are modelled by numeric identities (Python object identity
becomes equality of ids), their `previous_option`/`next_option` attributes
by an `OptStore`, and the side effects `onblur()`/`onfocus()`/`apply()` by
entries appended to an explicit call log. -/

/-- One recorded side-effect call on an Option (identified by its id). -/
inductive MCall where
  | onblur (o : Nat)
  | onfocus (o : Nat)
  | applyCall (o : Nat)
deriving DecidableEq

/-- Attribute store for constructed Option objects: `prevOf i` / `nextOf i`
give the `previous_option` / `next_option` attribute of object `i`
(`none` models the Python value None).  `count` is the next fresh id. -/
structure OptStore where
  prevOf : Nat → Option Nat
  nextOf : Nat → Option Nat
  count : Nat

/-- A store with no constructed Option. -/
def OptStore.empty : OptStore := ⟨fun _ => none, fun _ => none, 0⟩

/-- `Option.__init__` link wiring (`models/menus.py` lines 37-44), in source
order: if `previous_option` is given, set its `next_option` to the new
object; store `previous_option`; if `next_option` is given, set its
`previous_option` to the new object; store `next_option`.  Returns the
updated store and the id of the new object. -/
def mkOption (s : OptStore) (previous_option next_option : Option Nat) : OptStore × Nat :=
  let i := s.count
  let n1 : Nat → Option Nat :=
    match previous_option with
    | some p => fun q => if q = p then some i else s.nextOf q
    | none => s.nextOf
  let p1 : Nat → Option Nat := fun q => if q = i then previous_option else s.prevOf q
  let p2 : Nat → Option Nat :=
    match next_option with
    | some n => fun q => if q = n then some i else p1 q
    | none => p1
  let n2 : Nat → Option Nat := fun q => if q = i then next_option else n1 q
  (⟨p2, n2, i + 1⟩, i)

/-- State of a `Menu`: the owned Option list (in list order), the focused
Option (`self.option`, possibly None) and the running flag. -/
structure MenuState where
  options : List Nat
  option : Option Nat
  running : Bool
deriving DecidableEq

/-- `Menu.__init__(options)` focus management (`models/menus.py` lines
70-76): `self.option = None`; if the list is non-empty, focus its first
element and call `onfocus` on it.  Layout (`reset_options`) only moves
sprite positions and is not modelled.  Returns the state and the log of
`onfocus`/`onblur` calls made during construction. -/
def Menu.init (opts : List Nat) : MenuState × List MCall :=
  match opts with
  | [] => ({ options := opts, option := none, running := true }, [])
  | o :: _ => ({ options := opts, option := some o, running := true }, [MCall.onfocus o])

/-- `Menu.focus(option)` (`models/menus.py` lines 85-90).  The guard is
`option is not None and option is not self.option`; inside the body
`self.option.onblur()` is an attribute call on `self.option`, which raises
AttributeError (modelled by `Except.error`) when `self.option` is None. -/
def Menu.focus (st : MenuState) (x : Option Nat) : Except Unit (MenuState × List MCall) :=
  match x with
  | none => .ok (st, [])
  | some xid =>
    if st.option = some xid then
      .ok (st, [])
    else
      match st.option with
      | none => .error ()
      | some cur =>
        .ok ({ st with option := some xid }, [MCall.onblur cur, MCall.onfocus xid])

/-- `Menu.apply()` (`models/menus.py` lines 92-94): print the focused
Option message — an attribute read on `self.option` that raises if it is
None.  The print is recorded as an `applyCall` log entry. -/
def Menu.applyM (st : MenuState) : Except Unit (List MCall) :=
  match st.option with
  | none => .error ()
  | some o => .ok [MCall.applyCall o]

/-- The `for option in self.options` scan of `Menu.loop` (lines 117-120):
focus the first Option whose area contains the pointer, then break;
no match leaves the state unchanged. -/
def Menu.scanFocus (st : MenuState) (inside : Nat → Bool) :
    List Nat → Except Unit (MenuState × List MCall)
  | [] => .ok (st, [])
  | o :: rest =>
    if inside o then Menu.focus st (some o) else Menu.scanFocus st inside rest

/-- The navigation block of one `Menu.loop` iteration (`models/menus.py`
lines 109-120), guarded by `if self.option is not None`.  Device queries
are abstracted by their results: `pushUp`/`pushDown` are the values of
`keyboard.push('up', 0.233)` / `keyboard.push('down', 0.233)` (an
`Option Bool`, truthy exactly when `some true`), `mouseMove` the value of
`mouse.move()`, and `inside o` the value of `mouse.inside(area of o)`.
Each later test reads the current `self.option`, so the state is threaded
through the three sub-blocks. -/
def Menu.loopNav (store : OptStore) (st : MenuState) (pushUp pushDown : Option Bool)
    (mouseMove : Bool) (inside : Nat → Bool) : Except Unit (MenuState × List MCall) :=
  match st.option with
  | none => .ok (st, [])
  | some o0 => do
    let (st1, log1) ←
      if pushUp = some true then
        match store.prevOf o0 with
        | some p => Menu.focus st (some p)
        | none => .ok (st, [])
      else .ok (st, [])
    let (st2, log2) ←
      if pushDown = some true then
        match st1.option with
        | none => .error ()
        | some o1 =>
          match store.nextOf o1 with
          | some nx => Menu.focus st1 (some nx)
          | none => .ok (st1, [])
      else .ok (st1, [])
    let (st3, log3) ←
      if mouseMove then
        match st2.option with
        | none => .error ()
        | some o2 =>
          if inside o2 then .ok (st2, [])
          else Menu.scanFocus st2 inside st2.options
      else .ok (st2, [])
    .ok (st3, log1 ++ log2 ++ log3)

/-- The activation block of one `Menu.loop` iteration (`models/menus.py`
lines 124-127), guarded by `if self.option is not None`.  `confirm` lists
the results of the three `keyboard.push(key, 99)` queries, `click` the
result of `mouse.push(1, 99)`; an `Option Bool` is truthy exactly when it
is `some true`. -/
def Menu.loopApply (st : MenuState) (confirm : List (Option Bool)) (click : Option Bool)
    (inside : Nat → Bool) : Except Unit (MenuState × List MCall) :=
  match st.option with
  | none => .ok (st, [])
  | some o =>
    if (confirm.any fun r => r == some true) || (click == some true && inside o) then do
      let log ← Menu.applyM st
      .ok (st, log)
    else .ok (st, [])

/-! ## The Option action callback (spec-modelled)

`src/lab.py` constructs `menus.Option(message="OPTION A", action=lambda: ...)`
and calls `option.apply()`, but the `Option` class in `src/models/menus.py`
accepts no `action` argument and defines no `apply` method: the code that
decides the action/apply behavior is missing from the sources, only its
caller is present.  It is therefore modelled from the spec. -/

/-- Modelled from the spec: the value bound to an Option `action`
attribute, when present — either an invocable whose invocation produces
some output, or a non-invocable value whose attempted call raises. -/
inductive PyAction where
  | callable (output : List String)
  | notCallable
deriving DecidableEq

/-- What attempting to call the attribute does: calling an absent (None)
or non-invocable action raises (TypeError), modelled by `Except.error`. -/
def tryCallAction : Option PyAction → Except Unit (List String)
  | some (.callable out) => .ok out
  | some .notCallable => .error ()
  | none => .error ()

/-- Modelled from the spec: an Option as seen by `apply()` — its message
text and its optional attached action (absent from `src/models/menus.py`,
described in spec sections 4.2 and 9). -/
structure MOption where
  message : String
  action : Option PyAction
deriving DecidableEq

/-- Modelled from the spec: `Option.apply()` invokes the attached action
if present and callable; if the action is absent or not invocable, the
invocation failure is swallowed and replaced by printing the message
text.  The returned list is the produced output; no error propagates
(the return type is total, not `Except`). -/
def MOption.apply (o : MOption) : List String :=
  match tryCallAction o.action with
  | .ok out => out
  | .error _ => [o.message]

/-! ## Helper lemmas -/

theorem Mouse.inside_iff (m : Mouse) (r : Rect) :
    m.inside r = true ↔
      (r.x ≤ m.pos.1 ∧ m.pos.1 ≤ r.x + r.w ∧ r.y ≤ m.pos.2 ∧ m.pos.2 ≤ r.y + r.h) := by
  simp only [Mouse.inside, Rect.topleft, Rect.bottomright]
  split_ifs with h
  · exact iff_of_true rfl h
  · exact iff_of_false (by simp) h

theorem PMap.isSome_insert {α β : Type} [DecidableEq α] (m : PMap α β) (k q : α) (v : β) :
    ((m.insert k v) q).isSome = true ↔ (q = k ∨ (m q).isSome = true) := by
  simp only [PMap.insert]
  split_ifs with h <;> simp [h]

theorem mouse_update1_type_isSome (m : Mouse) (e : MEvent) (b : Int)
    (h : (m.button_type b).isSome = true) :
    ((Mouse.update1 m e).button_type b).isSome = true := by
  cases e <;> simp [Mouse.update1, PMap.isSome_insert, h]

/-- Once present, a mouse-button state entry survives any further events. -/
def mouse_foldl_type_isSome (b : Int) :
    ∀ (evs : List MEvent) (m : Mouse), (m.button_type b).isSome = true →
      ((evs.foldl Mouse.update1 m).button_type b).isSome = true
  | [], _, h => h
  | e :: rest, m, h =>
    mouse_foldl_type_isSome b rest (Mouse.update1 m e) (mouse_update1_type_isSome m e b h)

/-- Processing events that contain no `MOUSEBUTTONDOWN` for button `b`
leaves `_button_first` without an entry for `b`, while a `MOUSEBUTTONUP`
for `b` creates (and keeps) a `_button_type` entry. -/
theorem mouse_foldl_up_only (b : Int) (evs : List MEvent) :
    ∀ m : Mouse, m.button_first b = none →
      (∀ e ∈ evs, e ≠ MEvent.buttonDown b) →
      ((evs.foldl Mouse.update1 m).button_first b = none ∧
       (MEvent.buttonUp b ∈ evs →
         ((evs.foldl Mouse.update1 m).button_type b).isSome = true)) := by
  induction evs with
  | nil =>
    intro m h1 _
    exact ⟨h1, by simp⟩
  | cons e rest ih =>
    intro m h1 h2
    have he : e ≠ MEvent.buttonDown b := h2 e (List.mem_cons_self e rest)
    have h2' : ∀ x ∈ rest, x ≠ MEvent.buttonDown b :=
      fun x hx => h2 x (List.mem_cons_of_mem e hx)
    have hfirst : (Mouse.update1 m e).button_first b = none := by
      cases e with
      | buttonDown b' =>
        have hb : b' ≠ b := fun hb => he (by rw [hb])
        simp [Mouse.update1, PMap.insert, h1, Ne.symm hb]
      | buttonUp b' => simpa [Mouse.update1] using h1
      | motion p r => simpa [Mouse.update1] using h1
    obtain ⟨ih1, ih2⟩ := ih (Mouse.update1 m e) hfirst h2'
    refine ⟨ih1, fun hmem => ?_⟩
    rcases List.mem_cons.mp hmem with heq | hmem'
    · have htype : ((Mouse.update1 m e).button_type b).isSome = true := by
        rw [← heq]
        simp [Mouse.update1, PMap.insert]
      exact mouse_foldl_type_isSome b rest (Mouse.update1 m e) htype
    · exact ih2 hmem'

/-- An identifier appears in a keyboard event when it is the raw key code,
the produced character (when the platform reports one), or the symbolic
key name (when nonempty) of that event. -/
def KEvent.mentions (nm : Int → String) (id : KeyId) : KEvent → Prop
  | .keyDown k _ u =>
    id = .intId k ∨ (u ≠ "" ∧ id = .strId u) ∨ (nm k ≠ "" ∧ id = .strId (nm k))
  | .keyUp k _ =>
    id = .intId k ∨ (nm k ≠ "" ∧ id = .strId (nm k))

instance (nm : Int → String) (id : KeyId) : (e : KEvent) → Decidable (KEvent.mentions nm id e)
  | .keyDown _ _ _ => inferInstanceAs (Decidable (_ ∨ _))
  | .keyUp _ _ => inferInstanceAs (Decidable (_ ∨ _))

/-- A button number appears in a joystick event when the event is a button
event carrying that number (for any reporting device). -/
def JEvent.mentionsButton (b : Int) : JEvent → Prop
  | .buttonDown _ b' => b' = b
  | .buttonUp _ b' => b' = b
  | .axisMotion _ _ _ => False
  | .hatMotion _ _ _ => False
  | .ballMotion _ _ _ _ => False

instance (b : Int) : (e : JEvent) → Decidable (JEvent.mentionsButton b e)
  | .buttonDown _ _ => inferInstanceAs (Decidable (_ = _))
  | .buttonUp _ _ => inferInstanceAs (Decidable (_ = _))
  | .axisMotion _ _ _ => inferInstanceAs (Decidable False)
  | .hatMotion _ _ _ => inferInstanceAs (Decidable False)
  | .ballMotion _ _ _ _ => inferInstanceAs (Decidable False)

/-- Invariant carried through keyboard updates for a never-mentioned
identifier: no `_key_type` or `_key_first` entry, and the identifier is
not a character stored in the `_unicode` cache (so a later `KEYUP` cannot
create an entry for it either). -/
def Keyboard.untouched (kb : Keyboard) (id : KeyId) : Prop :=
  kb.key_type id = none ∧ kb.key_first id = none ∧
  ∀ (k mod : Int) (u : String), kb.unicode (k, mod) = some u → id ≠ KeyId.strId u

theorem keyboard_untouched_init (id : KeyId) : Keyboard.init.untouched id :=
  ⟨rfl, rfl, fun _ _ _ h => by simp [Keyboard.init, PMap.empty] at h⟩

theorem keyboard_untouched_step (nm : Int → String) (id : KeyId) (kb : Keyboard) (e : KEvent)
    (hinv : kb.untouched id) (he : ¬ KEvent.mentions nm id e) :
    (Keyboard.update1 nm kb e).untouched id := by
  obtain ⟨h1, h2, h3⟩ := hinv
  cases e with
  | keyDown k mod u =>
    simp only [KEvent.mentions, not_or, not_and] at he
    obtain ⟨hk, hu, hn⟩ := he
    have huni : u ≠ "" → ∀ (k' mod' : Int) (u' : String),
        (kb.unicode.insert (k, mod) u) (k', mod') = some u' → id ≠ KeyId.strId u' := by
      intro hue k' mod' u' h'
      simp only [PMap.insert] at h'
      rcases eq_or_ne ((k', mod') : Int × Int) (k, mod) with hp | hp
      · rw [if_pos hp] at h'
        have heq : u = u' := Option.some_inj.mp h'
        subst heq
        exact hu hue
      · rw [if_neg hp] at h'
        exact h3 k' mod' u' h'
    by_cases hue : u = ""
    · by_cases hne : nm k = ""
      · refine ⟨?_, ?_, ?_⟩
        · simp [Keyboard.update1, hue, hne, PMap.insert, hk, h1]
        · simp [Keyboard.update1, hue, hne, PMap.insert, hk, h2]
        · simpa [Keyboard.update1, hue, hne] using h3
      · refine ⟨?_, ?_, ?_⟩
        · simp [Keyboard.update1, hue, hne, PMap.insert, hk, hn hne, h1]
        · simp [Keyboard.update1, hue, hne, PMap.insert, hk, hn hne, h2]
        · simpa [Keyboard.update1, hue, hne] using h3
    · by_cases hne : nm k = ""
      · refine ⟨?_, ?_, ?_⟩
        · simp [Keyboard.update1, hue, hne, PMap.insert, hk, hu hue, h1]
        · simp [Keyboard.update1, hue, hne, PMap.insert, hk, hu hue, h2]
        · simpa [Keyboard.update1, hue, hne] using huni hue
      · refine ⟨?_, ?_, ?_⟩
        · simp [Keyboard.update1, hue, hne, PMap.insert, hk, hu hue, hn hne, h1]
        · simp [Keyboard.update1, hue, hne, PMap.insert, hk, hu hue, hn hne, h2]
        · simpa [Keyboard.update1, hue, hne] using huni hue
  | keyUp k mod =>
    simp only [KEvent.mentions, not_or, not_and] at he
    obtain ⟨hk, hn⟩ := he
    cases hu : kb.unicode (k, mod) with
    | none =>
      by_cases hne : nm k = ""
      · refine ⟨?_, ?_, ?_⟩
        · simp [Keyboard.update1, hu, hne, PMap.insert, hk, h1]
        · simpa [Keyboard.update1, hu, hne] using h2
        · simpa [Keyboard.update1, hu, hne] using h3
      · refine ⟨?_, ?_, ?_⟩
        · simp [Keyboard.update1, hu, hne, PMap.insert, hk, hn hne, h1]
        · simpa [Keyboard.update1, hu, hne] using h2
        · simpa [Keyboard.update1, hu, hne] using h3
    | some u' =>
      have hu' : id ≠ KeyId.strId u' := h3 k mod u' hu
      by_cases hne : nm k = ""
      · refine ⟨?_, ?_, ?_⟩
        · simp [Keyboard.update1, hu, hne, PMap.insert, hk, hu', h1]
        · simpa [Keyboard.update1, hu, hne] using h2
        · simpa [Keyboard.update1, hu, hne] using h3
      · refine ⟨?_, ?_, ?_⟩
        · simp [Keyboard.update1, hu, hne, PMap.insert, hk, hu', hn hne, h1]
        · simpa [Keyboard.update1, hu, hne] using h2
        · simpa [Keyboard.update1, hu, hne] using h3

theorem keyboard_untouched_batch (nm : Int → String) (id : KeyId) (evs : List KEvent) :
    ∀ kb : Keyboard, kb.untouched id → (∀ e ∈ evs, ¬ KEvent.mentions nm id e) →
      (Keyboard.update nm kb evs).untouched id := by
  induction evs with
  | nil => intro kb hinv _; exact hinv
  | cons e rest ih =>
    intro kb hinv h
    exact ih (Keyboard.update1 nm kb e)
      (keyboard_untouched_step nm id kb e hinv (h e (List.mem_cons_self e rest)))
      (fun x hx => h x (List.mem_cons_of_mem e hx))

theorem keyboard_untouched_batches (nm : Int → String) (id : KeyId)
    (batches : List (List KEvent)) :
    ∀ kb : Keyboard, kb.untouched id →
      (∀ evs ∈ batches, ∀ e ∈ evs, ¬ KEvent.mentions nm id e) →
      (batches.foldl (Keyboard.update nm) kb).untouched id := by
  induction batches with
  | nil => intro kb hinv _; exact hinv
  | cons evs rest ih =>
    intro kb hinv h
    exact ih (Keyboard.update nm kb evs)
      (keyboard_untouched_batch nm id evs kb hinv (h evs (List.mem_cons_self evs rest)))
      (fun x hx => h x (List.mem_cons_of_mem evs hx))

theorem joystick_unobserved_step (b : Int) (j : Joystick) (e : JEvent)
    (hinv : j.button_type b = none) (he : ¬ JEvent.mentionsButton b e) :
    (Joystick.update1 j e).button_type b = none := by
  cases e with
  | buttonDown joy b' =>
    have hb : b ≠ b' := fun hb => he (by simp [JEvent.mentionsButton, hb])
    by_cases hj : joy = j.id <;> simp_all [Joystick.update1, PMap.insert]
  | buttonUp joy b' =>
    have hb : b ≠ b' := fun hb => he (by simp [JEvent.mentionsButton, hb])
    by_cases hj : joy = j.id <;> simp_all [Joystick.update1, PMap.insert]
  | axisMotion joy a v =>
    by_cases hj : joy = j.id <;> simp_all [Joystick.update1]
  | hatMotion joy h v =>
    by_cases hj : joy = j.id <;> simp_all [Joystick.update1]
  | ballMotion joy bl r now =>
    by_cases hj : joy = j.id <;> simp_all [Joystick.update1]

theorem joystick_unobserved_batch (b : Int) (evs : List JEvent) :
    ∀ j : Joystick, j.button_type b = none →
      (∀ e ∈ evs, ¬ JEvent.mentionsButton b e) →
      (Joystick.update j evs).button_type b = none := by
  induction evs with
  | nil => intro j hinv _; exact hinv
  | cons e rest ih =>
    intro j hinv h
    exact ih (Joystick.update1 j e)
      (joystick_unobserved_step b j e hinv (h e (List.mem_cons_self e rest)))
      (fun x hx => h x (List.mem_cons_of_mem e hx))

theorem joystick_unobserved_batches (b : Int) (batches : List (List JEvent)) :
    ∀ j : Joystick, j.button_type b = none →
      (∀ evs ∈ batches, ∀ e ∈ evs, ¬ JEvent.mentionsButton b e) →
      (batches.foldl Joystick.update j).button_type b = none := by
  induction batches with
  | nil => intro j hinv _; exact hinv
  | cons evs rest ih =>
    intro j hinv h
    exact ih (Joystick.update j evs)
      (joystick_unobserved_batch b evs j hinv (h evs (List.mem_cons_self evs rest)))
      (fun x hx => h x (List.mem_cons_of_mem evs hx))

/-- A `KEYDOWN` event marks its raw key code as Down and freshly pressed,
whatever aliases it also creates. -/
theorem keyboard_down_intId (nm : Int → String) (kb : Keyboard) (k mod : Int) (u : String) :
    (Keyboard.update nm kb [.keyDown k mod u]).key_type (.intId k) = some .down ∧
    (Keyboard.update nm kb [.keyDown k mod u]).key_first (.intId k) = some true := by
  by_cases hue : u = "" <;> by_cases hne : nm k = "" <;>
    constructor <;>
    simp [Keyboard.update, Keyboard.update1, hue, hne, PMap.insert]

/-- First `push` after a fresh press: returns true whatever the delay,
clears the first-press mark and records `now` as the timer origin. -/
theorem keyboard_push_first (kb : Keyboard) (key : KeyId) (d now : ℚ)
    (h1 : (kb.key_type key).isSome = true) (h2 : kb.key_first key = some true) :
    Keyboard.push kb key d now =
      .ok (some true, { kb with key_first := kb.key_first.insert key false,
                                key_time := kb.key_time.insert key now }) := by
  obtain ⟨kt, hkt⟩ := Option.isSome_iff_exists.mp h1
  simp [Keyboard.push, hkt, h2]

/-- `push` on a held key (first-press mark cleared, state Down, origin
`t0`): returns true and re-arms the timer exactly when `now - t0 ≥ delay`,
otherwise false with the state unchanged. -/
theorem keyboard_push_held (kb : Keyboard) (key : KeyId) (delay now t0 : ℚ)
    (h1 : kb.key_first key = some false) (h2 : kb.key_type key = some .down)
    (h3 : kb.key_time key = some t0) :
    Keyboard.push kb key delay now =
      if now - t0 ≥ delay then
        .ok (some true, { kb with key_time := kb.key_time.insert key now })
      else
        .ok (some false, kb) := by
  simp [Keyboard.push, h1, h2, h3]

/-! ## Claim theorems -/

/-- C9: for every mouse position and every axis-aligned rectangle with
nonnegative width and height, `Mouse.inside` returns true exactly when the
position lies within the rectangle with inclusive bounds; in particular it
is true on the boundary (top-left and bottom-right corners included) and
false one unit outside the rectangle on any side. -/
theorem mouse_inside_inclusive_bounds (r : Rect) (hw : 0 ≤ r.w) (hh : 0 ≤ r.h) :
    (∀ m : Mouse, m.inside r = true ↔
      (r.x ≤ m.pos.1 ∧ m.pos.1 ≤ r.x + r.w ∧ r.y ≤ m.pos.2 ∧ m.pos.2 ≤ r.y + r.h)) ∧
    (∀ m : Mouse, m.pos = (r.x, r.y) → m.inside r = true) ∧
    (∀ m : Mouse, m.pos = (r.x + r.w, r.y + r.h) → m.inside r = true) ∧
    (∀ m : Mouse, m.pos.1 = r.x - 1 → m.inside r = false) ∧
    (∀ m : Mouse, m.pos.1 = r.x + r.w + 1 → m.inside r = false) ∧
    (∀ m : Mouse, m.pos.2 = r.y - 1 → m.inside r = false) ∧
    (∀ m : Mouse, m.pos.2 = r.y + r.h + 1 → m.inside r = false) := by
  refine ⟨fun m => Mouse.inside_iff m r, ?_, ?_, ?_, ?_, ?_, ?_⟩ <;>
    intro m h <;>
    [skip; skip; rw [Bool.eq_false_iff, Ne, Mouse.inside_iff];
      rw [Bool.eq_false_iff, Ne, Mouse.inside_iff];
      rw [Bool.eq_false_iff, Ne, Mouse.inside_iff];
      rw [Bool.eq_false_iff, Ne, Mouse.inside_iff]] <;>
    [rw [Mouse.inside_iff, h]; rw [Mouse.inside_iff, h]; skip; skip; skip; skip] <;>
    omega

theorem mouse_inside_inclusive_bounds_witness :
    (0 : Int) ≤ 4 ∧ (0 : Int) ≤ 3 ∧
    ∀ m : Mouse, m.pos = (11, 25) → m.inside ⟨7, 22, 4, 3⟩ = true := by
  refine ⟨by decide, by decide, ?_⟩
  have h := (mouse_inside_inclusive_bounds ⟨7, 22, 4, 3⟩ (by decide) (by decide)).2.2.1
  simpa using h

/-- C5: a Menu constructed with a non-empty Option list has, immediately
after construction, exactly one focused Option — the first in list order —
and `onfocus` has been invoked on it exactly once; a Menu constructed with
the empty list has no focused Option and makes no focus call. -/
theorem menu_init_focus_first :
    (∀ (o : Nat) (rest : List Nat),
      (Menu.init (o :: rest)).1.option = some o ∧
      (Menu.init (o :: rest)).2 = [MCall.onfocus o]) ∧
    (Menu.init []).1.option = none ∧ (Menu.init []).2 = [] :=
  ⟨fun _ _ => ⟨rfl, rfl⟩, rfl, rfl⟩

/-- C4: `Menu.focus` is a no-op (zero `onblur`/`onfocus` calls) when the
argument is None or is the already-focused Option; when the argument
differs from the currently focused Option, it makes exactly one `onblur`
call on the previously focused Option and exactly one `onfocus` call on
the argument, which becomes the focused Option. -/
theorem menu_focus_transition_calls (st : MenuState) :
    Menu.focus st none = .ok (st, []) ∧
    (∀ xid, st.option = some xid → Menu.focus st (some xid) = .ok (st, [])) ∧
    (∀ cur xid, st.option = some cur → xid ≠ cur →
      Menu.focus st (some xid) =
        .ok ({ st with option := some xid }, [MCall.onblur cur, MCall.onfocus xid])) := by
  refine ⟨rfl, ?_, ?_⟩
  · intro xid h
    simp [Menu.focus, h]
  · intro cur xid h hne
    simp [Menu.focus, h, Option.some_inj, Ne.symm hne]

theorem menu_focus_transition_calls_witness :
    (⟨[0, 1], some 0, true⟩ : MenuState).option = some 0 ∧ (1 : Nat) ≠ 0 ∧
    Menu.focus ⟨[0, 1], some 0, true⟩ (some 1) =
      .ok (⟨[0, 1], some 1, true⟩, [MCall.onblur 0, MCall.onfocus 1]) :=
  ⟨rfl, by decide,
    (menu_focus_transition_calls ⟨[0, 1], some 0, true⟩).2.2 0 1 rfl (by decide)⟩

/-- C6: Option construction-time link wiring is symmetric in both
directions — constructing B with `previous_option = A` sets both
`A.next_option = B` and `B.previous_option = A`, and constructing A with
`next_option = N` sets both `N.previous_option = A` and
`A.next_option = N` (for already-constructed arguments A resp. N). -/
theorem option_wiring_symmetric (s : OptStore) :
    (∀ a, a < s.count → ∀ s2 b, mkOption s (some a) none = (s2, b) →
      s2.nextOf a = some b ∧ s2.prevOf b = some a) ∧
    (∀ n, n < s.count → ∀ s2 a, mkOption s none (some n) = (s2, a) →
      s2.prevOf n = some a ∧ s2.nextOf a = some n) := by
  constructor
  · intro a ha s2 b h
    have hne : a ≠ s.count := Nat.ne_of_lt ha
    simp only [mkOption, Prod.mk.injEq] at h
    obtain ⟨hs2, hb⟩ := h
    subst hs2; subst hb
    simp [hne]
  · intro n hn s2 a h
    have hne : n ≠ s.count := Nat.ne_of_lt hn
    simp only [mkOption, Prod.mk.injEq] at h
    obtain ⟨hs2, ha⟩ := h
    subst hs2; subst ha
    simp [hne]

theorem option_wiring_symmetric_witness :
    0 < (mkOption OptStore.empty none none).1.count ∧
    ((mkOption (mkOption OptStore.empty none none).1 (some 0) none).1.nextOf 0 =
      some (mkOption (mkOption OptStore.empty none none).1 (some 0) none).2 ∧
    (mkOption (mkOption OptStore.empty none none).1 (some 0) none).1.prevOf
      (mkOption (mkOption OptStore.empty none none).1 (some 0) none).2 = some 0) :=
  ⟨by decide,
    (option_wiring_symmetric (mkOption OptStore.empty none none).1).1 0 (by decide) _ _ rfl⟩

/-- C3: `Option.apply()` invokes the attached action when one is present
and callable (producing the action output); when the action is absent or
not invocable the attempted invocation raises, the failure is swallowed,
and `apply()` falls back to printing the message text — `MOption.apply`
is total, so no failure reaches the caller.  (Spec-modelled: the
`action`/`apply` members are absent from `src/models/menus.py`.) -/
theorem option_apply_fallback (o : MOption) :
    (∀ out, o.action = some (PyAction.callable out) →
      tryCallAction o.action = .ok out ∧ o.apply = out) ∧
    (o.action = none → tryCallAction o.action = .error () ∧ o.apply = [o.message]) ∧
    (o.action = some PyAction.notCallable →
      tryCallAction o.action = .error () ∧ o.apply = [o.message]) := by
  refine ⟨?_, ?_, ?_⟩
  · intro out h
    rw [MOption.apply, h]
    exact ⟨rfl, rfl⟩
  · intro h
    rw [MOption.apply, h]
    exact ⟨rfl, rfl⟩
  · intro h
    rw [MOption.apply, h]
    exact ⟨rfl, rfl⟩

theorem option_apply_fallback_witness :
    (MOption.mk "OPTION" none).action = none ∧
    tryCallAction (MOption.mk "OPTION" none).action = .error () ∧
    (MOption.mk "OPTION" none).apply = ["OPTION"] :=
  ⟨rfl, (option_apply_fallback (MOption.mk "OPTION" none)).2.1 rfl⟩

/-- C7 counterexample: on a Menu whose Option list is empty (no focused
Option), `focus(X)` for a non-None X is not a no-op — the guard
`option is not None and option is not self.option` passes and
`self.option.onblur()` raises AttributeError on None. -/
theorem menu_focus_empty_raises :
    Menu.focus { options := [], option := none, running := true } (some 0) = .error () := rfl

/-- C7 amended: on a Menu with no focused Option (in particular one whose
Option list is empty), `focus(None)` and the per-iteration navigation and
activation blocks of `loop()` are no-ops guarded by a None check and
raise no error and make no call; `focus(X)` with non-None X, however, is
not guarded and raises. -/
theorem menu_empty_guarded_noop (st : MenuState) (h : st.option = none) :
    Menu.focus st none = .ok (st, []) ∧
    (∀ store pushUp pushDown mouseMove inside,
      Menu.loopNav store st pushUp pushDown mouseMove inside = .ok (st, [])) ∧
    (∀ confirm click inside, Menu.loopApply st confirm click inside = .ok (st, [])) := by
  refine ⟨rfl, ?_, ?_⟩
  · intro store pushUp pushDown mouseMove inside
    simp [Menu.loopNav, h]
  · intro confirm click inside
    simp [Menu.loopApply, h]

theorem menu_empty_guarded_noop_witness :
    (⟨[], none, true⟩ : MenuState).option = none ∧
    Menu.loopNav OptStore.empty ⟨[], none, true⟩ (some true) (some true) true
      (fun _ => true) = .ok (⟨[], none, true⟩, []) :=
  ⟨rfl, (menu_empty_guarded_noop ⟨[], none, true⟩ rfl).2.1 OptStore.empty
    (some true) (some true) true (fun _ => true)⟩

/-- C10: a mouse button whose only observed events are `MOUSEBUTTONUP`
events has a `_button_type` entry but no `_button_first` entry, and
`Mouse.push` then raises KeyError (the out-of-domain `_button_first`
read) instead of returning Unknown, true or false; `Keyboard.push`, by
contrast, checks both dicts and returns Unknown (None) in the analogous
state. -/
theorem mouse_push_keyerror_after_up_only :
    (∀ (m : Mouse) (b : Int) (d now : ℚ),
      (m.button_type b).isSome = true → m.button_first b = none →
      Mouse.push m b d now = .error ()) ∧
    (∀ (m : Mouse) (evs : List MEvent) (b : Int), m.button_first b = none →
      (∀ e ∈ evs, e ≠ MEvent.buttonDown b) →
      ((Mouse.update m evs).button_first b = none ∧
       (MEvent.buttonUp b ∈ evs → ((Mouse.update m evs).button_type b).isSome = true))) ∧
    (∀ (kb : Keyboard) (key : KeyId) (d now : ℚ), kb.key_first key = none →
      Keyboard.push kb key d now = .ok (none, kb)) := by
  refine ⟨?_, ?_, ?_⟩
  · intro m b d now h1 h2
    obtain ⟨bt, hbt⟩ := Option.isSome_iff_exists.mp h1
    simp [Mouse.push, hbt, h2]
  · intro m evs b h1 h2
    exact mouse_foldl_up_only b evs { m with rel := (0, 0) } h1 h2
  · intro kb key d now h
    simp [Keyboard.push, h]

theorem mouse_push_keyerror_after_up_only_witness :
    ((Mouse.update Mouse.init [MEvent.buttonUp 1]).button_type 1).isSome = true ∧
    (Mouse.update Mouse.init [MEvent.buttonUp 1]).button_first 1 = none ∧
    Mouse.push (Mouse.update Mouse.init [MEvent.buttonUp 1]) 1 99 0 = .error () :=
  ⟨by decide, by decide,
    mouse_push_keyerror_after_up_only.1 (Mouse.update Mouse.init [MEvent.buttonUp 1])
      1 99 0 (by decide) (by decide)⟩

/-- C2: an identifier that never appeared in any event passed to `update`
yields the distinguished Unknown value (None) from `Keyboard.push` — and
likewise a button never appearing in any event yields None from
`Joystick.push_button` — distinct from both `some true` and `some false`,
with no error raised and the state unchanged. -/
theorem push_unknown_for_unobserved (nm : Int → String) (id : KeyId)
    (batches : List (List KEvent))
    (hk : ∀ evs ∈ batches, ∀ e ∈ evs, ¬ KEvent.mentions nm id e)
    (jid b : Int) (jbatches : List (List JEvent))
    (hj : ∀ evs ∈ jbatches, ∀ e ∈ evs, ¬ JEvent.mentionsButton b e)
    (d t : ℚ) :
    Keyboard.push (batches.foldl (Keyboard.update nm) Keyboard.init) id d t =
      .ok (none, batches.foldl (Keyboard.update nm) Keyboard.init) ∧
    Joystick.push_button (jbatches.foldl Joystick.update (Joystick.init jid)) b d t =
      .ok (none, jbatches.foldl Joystick.update (Joystick.init jid)) := by
  constructor
  · have hinv := keyboard_untouched_batches nm id batches Keyboard.init
      (keyboard_untouched_init id) hk
    simp [Keyboard.push, hinv.1]
  · have hinv : (jbatches.foldl Joystick.update (Joystick.init jid)).button_type b = none :=
      joystick_unobserved_batches b jbatches (Joystick.init jid) rfl hj
    simp [Joystick.push_button, hinv]

theorem push_unknown_for_unobserved_witness :
    (∀ evs ∈ [[KEvent.keyDown 7 0 "x"], [KEvent.keyUp 7 0]], ∀ e ∈ evs,
      ¬ KEvent.mentions (fun _ => "seven") (KeyId.intId 5) e) ∧
    (∀ evs ∈ [[JEvent.buttonDown 0 1]], ∀ e ∈ evs, ¬ JEvent.mentionsButton 3 e) ∧
    (Keyboard.push ([[KEvent.keyDown 7 0 "x"], [KEvent.keyUp 7 0]].foldl
        (Keyboard.update (fun _ => "seven")) Keyboard.init) (KeyId.intId 5) 1 0 =
      .ok (none, [[KEvent.keyDown 7 0 "x"], [KEvent.keyUp 7 0]].foldl
        (Keyboard.update (fun _ => "seven")) Keyboard.init) ∧
    Joystick.push_button ([[JEvent.buttonDown 0 1]].foldl Joystick.update
        (Joystick.init 0)) 3 1 0 =
      .ok (none, [[JEvent.buttonDown 0 1]].foldl Joystick.update (Joystick.init 0))) :=
  ⟨by decide, by decide,
    push_unknown_for_unobserved (fun _ => "seven") (KeyId.intId 5)
      [[KEvent.keyDown 7 0 "x"], [KEvent.keyUp 7 0]] (by decide)
      0 3 [[JEvent.buttonDown 0 1]] (by decide) 1 0⟩

/-- C1: after a Down event on a key (at time 0) with repeat delay `d > 0`,
the first `push` returns true once whatever the delay and records the
current time as the repeat-timer origin; a second call at the same
instant returns false; queries at `d / 2`, `d` and `2 * d` return false,
true, true (each true re-arming the timer); and in general, while the
key state remains Down, `push` returns true exactly when at least `delay`
seconds have elapsed since the last true-returning call. -/
theorem keyboard_push_edge_and_repeat (nm : Int → String) (kb : Keyboard) (k mod : Int)
    (u : String) (d : ℚ) (hd : 0 < d) :
    ∃ kb2 : Keyboard,
      (∀ d' : ℚ, Keyboard.push (Keyboard.update nm kb [.keyDown k mod u]) (.intId k) d' 0 =
        .ok (some true, kb2)) ∧
      kb2.key_time (.intId k) = some 0 ∧
      Keyboard.push kb2 (.intId k) d 0 = .ok (some false, kb2) ∧
      Keyboard.push kb2 (.intId k) d (d / 2) = .ok (some false, kb2) ∧
      (∃ kb3 : Keyboard, Keyboard.push kb2 (.intId k) d d = .ok (some true, kb3) ∧
        kb3.key_time (.intId k) = some d ∧
        ∃ kb4 : Keyboard, Keyboard.push kb3 (.intId k) d (2 * d) = .ok (some true, kb4) ∧
          kb4.key_time (.intId k) = some (2 * d)) ∧
      (∀ (kb' : Keyboard) (key : KeyId) (delay now t0 : ℚ),
        kb'.key_first key = some false → kb'.key_type key = some .down →
        kb'.key_time key = some t0 →
        Keyboard.push kb' key delay now =
          if now - t0 ≥ delay then
            .ok (some true, { kb' with key_time := kb'.key_time.insert key now })
          else .ok (some false, kb')) := by
  set kb1 := Keyboard.update nm kb [.keyDown k mod u] with hkb1
  obtain ⟨htype, hfirst⟩ := keyboard_down_intId nm kb k mod u
  set kb2 : Keyboard := { kb1 with key_first := kb1.key_first.insert (.intId k) false,
                                   key_time := kb1.key_time.insert (.intId k) 0 } with hkb2
  have hk2first : kb2.key_first (.intId k) = some false := PMap.insert_same _ _ _
  have hk2type : kb2.key_type (.intId k) = some .down := htype
  have hk2time : kb2.key_time (.intId k) = some 0 := PMap.insert_same _ _ _
  refine ⟨kb2, ?_, hk2time, ?_, ?_, ?_, ?_⟩
  · intro d'
    exact keyboard_push_first kb1 (.intId k) d' 0 (by rw [htype]; rfl) hfirst
  · rw [keyboard_push_held kb2 (.intId k) d 0 0 hk2first hk2type hk2time,
      if_neg (by linarith)]
  · rw [keyboard_push_held kb2 (.intId k) d (d / 2) 0 hk2first hk2type hk2time,
      if_neg (by linarith)]
  · set kb3 : Keyboard := { kb2 with key_time := kb2.key_time.insert (.intId k) d } with hkb3
    have hk3first : kb3.key_first (.intId k) = some false := hk2first
    have hk3type : kb3.key_type (.intId k) = some .down := hk2type
    have hk3time : kb3.key_time (.intId k) = some d := PMap.insert_same _ _ _
    refine ⟨kb3, ?_, hk3time,
      { kb3 with key_time := kb3.key_time.insert (.intId k) (2 * d) }, ?_,
      PMap.insert_same _ _ _⟩
    · rw [keyboard_push_held kb2 (.intId k) d d 0 hk2first hk2type hk2time,
        if_pos (by linarith)]
    · rw [keyboard_push_held kb3 (.intId k) d (2 * d) d hk3first hk3type hk3time,
        if_pos (by linarith)]
  · intro kb' key delay now t0 h1 h2 h3
    exact keyboard_push_held kb' key delay now t0 h1 h2 h3

theorem keyboard_push_edge_and_repeat_witness :
    (0 : ℚ) < 1 ∧
    ∃ kb2 : Keyboard,
      (∀ d' : ℚ,
        Keyboard.push (Keyboard.update (fun _ => "") Keyboard.init [.keyDown 97 0 "a"])
          (.intId 97) d' 0 = .ok (some true, kb2)) ∧
      kb2.key_time (.intId 97) = some 0 ∧
      Keyboard.push kb2 (.intId 97) 1 0 = .ok (some false, kb2) ∧
      Keyboard.push kb2 (.intId 97) 1 (1 / 2) = .ok (some false, kb2) ∧
      (∃ kb3 : Keyboard, Keyboard.push kb2 (.intId 97) 1 1 = .ok (some true, kb3) ∧
        kb3.key_time (.intId 97) = some 1 ∧
        ∃ kb4 : Keyboard, Keyboard.push kb3 (.intId 97) 1 (2 * 1) = .ok (some true, kb4) ∧
          kb4.key_time (.intId 97) = some (2 * 1)) ∧
      (∀ (kb' : Keyboard) (key : KeyId) (delay now t0 : ℚ),
        kb'.key_first key = some false → kb'.key_type key = some .down →
        kb'.key_time key = some t0 →
        Keyboard.push kb' key delay now =
          if now - t0 ≥ delay then
            .ok (some true, { kb' with key_time := kb'.key_time.insert key now })
          else .ok (some false, kb')) :=
  ⟨by norm_num,
    keyboard_push_edge_and_repeat (fun _ => "") Keyboard.init 97 0 "a" 1 (by norm_num)⟩

/-- C8 counterexample: a `KEYDOWN` with modifier state 1 producing
character "A" followed by a `KEYUP` of the same key with modifier state 0
leaves the raw-code identifier Up but the character identifier still
Down — the aliases do not transition in lockstep on every subsequent
KeyUp for the same key, because the character release is looked up under
the exact `(key, mod)` pair stored at press time. -/
theorem keyboard_alias_mod_mismatch :
    (Keyboard.update (fun k => if k = 5 then "five" else "") Keyboard.init
      [KEvent.keyDown 5 1 "A", KEvent.keyUp 5 0]).key_type (KeyId.intId 5) =
        some KeyType.up ∧
    (Keyboard.update (fun k => if k = 5 then "five" else "") Keyboard.init
      [KEvent.keyDown 5 1 "A", KEvent.keyUp 5 0]).key_type (KeyId.strId "A") =
        some KeyType.down := by
  decide

/-- C8 amended: for a `KEYDOWN` carrying a printable character on a key
with a nonempty symbolic name, the three alias identifiers (raw code,
character, name) all transition to Down together; on a subsequent `KEYUP`
for the same key carrying the same modifier state as the press, all
three transition to Up together. -/
theorem keyboard_alias_lockstep_same_mod (nm : Int → String) (kb : Keyboard) (k mod : Int)
    (u : String) (hu : u ≠ "") (hn : nm k ≠ "") :
    ((Keyboard.update nm kb [.keyDown k mod u]).key_type (.intId k) = some .down ∧
     (Keyboard.update nm kb [.keyDown k mod u]).key_type (.strId u) = some .down ∧
     (Keyboard.update nm kb [.keyDown k mod u]).key_type (.strId (nm k)) = some .down) ∧
    ((Keyboard.update nm (Keyboard.update nm kb [.keyDown k mod u])
        [.keyUp k mod]).key_type (.intId k) = some .up ∧
     (Keyboard.update nm (Keyboard.update nm kb [.keyDown k mod u])
        [.keyUp k mod]).key_type (.strId u) = some .up ∧
     (Keyboard.update nm (Keyboard.update nm kb [.keyDown k mod u])
        [.keyUp k mod]).key_type (.strId (nm k)) = some .up) := by
  have hlookup : (Keyboard.update nm kb [.keyDown k mod u]).unicode (k, mod) = some u := by
    simp [Keyboard.update, Keyboard.update1, hu, hn, PMap.insert]
  refine ⟨⟨?_, ?_, ?_⟩, ?_, ?_, ?_⟩ <;>
    by_cases hun : u = nm k <;>
    simp [Keyboard.update, Keyboard.update1, hu, hn, hun, hlookup, PMap.insert]

theorem keyboard_alias_lockstep_same_mod_witness :
    "a" ≠ "" ∧ (fun _ : Int => "akey") 97 ≠ "" ∧
    ((Keyboard.update (fun _ => "akey") Keyboard.init
        [.keyDown 97 0 "a"]).key_type (.strId "a") = some .down ∧
     (Keyboard.update (fun _ => "akey") (Keyboard.update (fun _ => "akey") Keyboard.init
        [.keyDown 97 0 "a"]) [.keyUp 97 0]).key_type (.strId "a") = some .up) := by
  have h := keyboard_alias_lockstep_same_mod (fun _ => "akey") Keyboard.init 97 0 "a"
    (by decide) (by decide)
  exact ⟨by decide, by decide, h.1.2.1, h.2.2.1⟩

end TrainingPygame
